import Mathlib

/-!
Shallow embedding of the taxonomy consistency engine of the typecho-blog-api
repository (src/function/category_edit.py, tags_edit.py, post_edit.py).

The store models the three tables used by the engine: `typecho_metas`
(taxonomy nodes, discriminated by the `type` column), `typecho_relationships`
(content-to-node links) and `typecho_contents` (posts and drafts).  Row ids
(`mid`, `cid`) are auto-increment integers, modelled by the `nextMid` /
`nextCid` counters.  SQL integers are modelled as `Int`.

Validation error messages are short English stand-ins for the Chinese
message strings of the source; only their identity and order matter here.
-/

namespace TypechoApi

/-- The `type` column of `typecho_metas`, restricted to the two taxonomy
kinds the engine manages. -/
inductive MetaType
  | category
  | tag
deriving DecidableEq, Repr

/-- One row of `typecho_metas`. -/
structure Meta where
  mid : Int
  mtype : MetaType
  name : String
  slug : String
  description : String
  order : Int
  parent : Int
  count : Int
deriving DecidableEq, Repr

/-- One row of `typecho_relationships`: a link between content `cid` and
taxonomy node `mid`. -/
structure Rel where
  cid : Int
  mid : Int
deriving DecidableEq, Repr

/-- One row of `typecho_contents`, restricted to the columns the taxonomy
engine reads or writes (`cid`, `type`, `status`, `parent`). -/
structure Content where
  cid : Int
  ctype : String
  status : String
  parent : Int
deriving DecidableEq, Repr

/-- The backing store: the three tables plus the auto-increment counters. -/
structure Store where
  metas : List Meta
  rels : List Rel
  contents : List Content
  nextMid : Int
  nextCid : Int
deriving DecidableEq, Repr

/-- Errors surfaced by the API handlers: accumulated validation messages
(HTTP 400), not-found (404). -/
inductive ApiErr
  | validation (msgs : List String)
  | notFound
deriving DecidableEq, Repr

/-! ### Pure query layer (the SQL SELECTs, on a healthy connection) -/

/-- `SELECT mid FROM typecho_metas WHERE type = 'category' AND mid = %s LIMIT 1`
as an existence test. -/
def categoryExistsQ (s : Store) (mid : Int) : Bool :=
  s.metas.any fun m => m.mtype == MetaType.category && m.mid == mid

/-- `SELECT mid FROM typecho_metas WHERE type = 'tag' AND mid = %s LIMIT 1`
as an existence test. -/
def tagExistsQ (s : Store) (mid : Int) : Bool :=
  s.metas.any fun m => m.mtype == MetaType.tag && m.mid == mid

/-- Name uniqueness probe.  The `ignore_mid` exclusion is only added when the
Python value is truthy, so `some 0` behaves like no exclusion. -/
def nameExistsQ (s : Store) (t : MetaType) (nm : String) (ignoreMid : Option Int) : Bool :=
  s.metas.any fun m =>
    m.mtype == t && m.name == nm &&
      (match ignoreMid with
       | none => true
       | some i => i == 0 || m.mid != i)

/-- Slug uniqueness probe, with the same truthiness convention for
`ignore_mid` as `nameExistsQ`. -/
def slugExistsQ (s : Store) (t : MetaType) (sl : String) (ignoreMid : Option Int) : Bool :=
  s.metas.any fun m =>
    m.mtype == t && m.slug == sl &&
      (match ignoreMid with
       | none => true
       | some i => i == 0 || m.mid != i)

/-- `SELECT MAX(order) ... WHERE type = %s AND parent = %s`: `none` models
SQL NULL on an empty bucket. -/
def maxOrderQ (s : Store) (t : MetaType) (parentMid : Int) : Option Int :=
  ((s.metas.filter fun m => m.mtype == t && m.parent == parentMid).map Meta.order).max?

/-- `get_max_order` of category_edit.py: the Python expression
`result['max_order'] if result and result['max_order'] else 0` maps both SQL
NULL and a stored 0 to 0. -/
def get_max_order (s : Store) (parentMid : Int) : Int :=
  match maxOrderQ s MetaType.category parentMid with
  | none => 0
  | some v => if v == 0 then 0 else v

/-- First row of
`SELECT ... FROM typecho_metas WHERE mid = %s AND type = 'category'`. -/
def findCategory (s : Store) (mid : Int) : Option Meta :=
  s.metas.find? fun m => m.mid == mid && m.mtype == MetaType.category

/-! ### Fault-injecting helper layer (the try/except wrappers)

Each helper in category_edit.py / tags_edit.py wraps its query in
`try/except` and returns a default (`False`, resp. `0`) when the underlying
storage call raises.  A connection is a store plus an optional injected
fault. -/

/-- A storage-level failure raised by the driver. -/
inductive DbErr
  | queryFailed
deriving DecidableEq, Repr

/-- A connection: the store reachable through it, plus an optional fault
that makes every query on it raise. -/
structure Conn where
  store : Store
  fault : Option DbErr
deriving Repr

/-- Running one query on a connection: raises the injected fault if any. -/
def runQuery (conn : Conn) (f : Store → α) : Except DbErr α :=
  match conn.fault with
  | some e => Except.error e
  | none => Except.ok (f conn.store)

/-- `category_exists` of category_edit.py: on a storage error the exception
is caught and `False` is returned. -/
def category_exists (conn : Conn) (mid : Int) : Bool :=
  match runQuery conn (fun s => categoryExistsQ s mid) with
  | Except.ok b => b
  | Except.error _ => false

/-- `tag_exists` of tags_edit.py: same silent-default shape. -/
def tag_exists (conn : Conn) (mid : Int) : Bool :=
  match runQuery conn (fun s => tagExistsQ s mid) with
  | Except.ok b => b
  | Except.error _ => false

/-- `name_exists` of category_edit.py (the tags_edit.py copy differs only in
the kind): returns `False` on a storage error. -/
def name_exists (conn : Conn) (t : MetaType) (nm : String) (ignoreMid : Option Int) : Bool :=
  match runQuery conn (fun s => nameExistsQ s t nm ignoreMid) with
  | Except.ok b => b
  | Except.error _ => false

/-- `slug_exists`: returns `False` on a storage error. -/
def slug_exists (conn : Conn) (t : MetaType) (sl : String) (ignoreMid : Option Int) : Bool :=
  match runQuery conn (fun s => slugExistsQ s t sl ignoreMid) with
  | Except.ok b => b
  | Except.error _ => false

/-- `get_max_order` on a connection: returns `0` on a storage error. -/
def get_max_order_conn (conn : Conn) (parentMid : Int) : Int :=
  match runQuery conn (fun s => maxOrderQ s MetaType.category parentMid) with
  | Except.ok r =>
      match r with
      | none => 0
      | some v => if v == 0 then 0 else v
  | Except.error _ => 0

/-! ### Python string primitives

Modelled structurally (rather than through core `String.trim` /
`String.toLower`) so that every operation reduces inside the kernel. -/

/-- Python `str.strip()`: drop leading and trailing whitespace. -/
def pyStrip (s : String) : String :=
  String.mk (((s.toList.dropWhile Char.isWhitespace).reverse.dropWhile
    Char.isWhitespace).reverse)

/-- Python `str.lower()` over the ASCII range. -/
def pyLower (s : String) : String :=
  String.mk (s.toList.map Char.toLower)

/-! ### Slug derivation (`slugify`, shared by both edit modules)

`\w` and `\s` of the Python regexes are modelled over their ASCII parts,
which covers every slug the claims exercise. -/

/-- ASCII model of the regex class `\w`. -/
def pyWordChar (c : Char) : Bool :=
  c.isAlphanum || c == '_'

/-- First substitution of `slugify`: drop every character outside
`[^\w\s-]` (i.e. keep word chars, whitespace and hyphens). -/
def slugKeep (c : Char) : Bool :=
  pyWordChar c || c.isWhitespace || c == '-'

/-- Second substitution of `slugify`: collapse each run of `[-\s]+` into a
single hyphen.  The flag records whether the previous kept character closed
such a run. -/
def collapseRuns : Bool → List Char → List Char
  | _, [] => []
  | prevSep, c :: rest =>
    if c.isWhitespace || c == '-' then
      if prevSep then collapseRuns true rest
      else '-' :: collapseRuns true rest
    else c :: collapseRuns false rest

/-- `slugify(name)`: lowercase the stripped name, drop disallowed
characters, collapse whitespace/hyphen runs into single hyphens. -/
def slugify (nm : String) : String :=
  String.mk (collapseRuns false ((pyLower (pyStrip nm)).toList.filter slugKeep))

/-- The slug-format regex `^[a-zA-Z0-9_-]+$`. -/
def validSlugChar (c : Char) : Bool :=
  (('a' ≤ c && c ≤ 'z') || ('A' ≤ c && c ≤ 'Z') || ('0' ≤ c && c ≤ '9')
    || c == '_' || c == '-')

/-- `re.match(r'^[a-zA-Z0-9_-]+$', slug)` as a boolean test. -/
def validSlug (sl : String) : Bool :=
  !sl.isEmpty && sl.toList.all validSlugChar

/-! ### Category creation (`create_category`) -/

/-- The JSON body of a category-create request.  `parent` defaults to 0 when
the field is absent; non-integer parent values (which add a validation
error in the source) are outside the modelled inputs. -/
structure CatCreateReq where
  name : String
  slug : String
  description : String
  parent : Int
deriving DecidableEq, Repr

/-- The `category` object of a successful create response. -/
structure CatCreated where
  mid : Int
  name : String
  slug : String
  description : String
  parent : Int
  order : Int
deriving DecidableEq, Repr

/-- Validation errors accumulated by `create_category`, in source order:
name (required, unique), slug (format, unique), parent (non-negative and
existing when truthy).  `nm` and `sl` are the already stripped/derived
values. -/
def catCreateErrors (s : Store) (nm sl : String) (parent : Int) : List String :=
  (if nm.isEmpty then ["name-empty"]
   else if nameExistsQ s MetaType.category nm none then ["name-exists"] else [])
  ++ (if !validSlug sl then ["slug-format"]
      else if slugExistsQ s MetaType.category sl none then ["slug-exists"] else [])
  ++ (if parent != 0 then
        if parent < 0 then ["parent-invalid"]
        else if parent > 0 && !categoryExistsQ s parent then ["parent-missing"]
        else []
      else [])

/-- `create_category` of category_edit.py: accumulate validation errors in
source order (name, slug, parent), then insert with
`order = get_max_order(parent) + 1` and `count = 0`. -/
def create_category (s : Store) (req : CatCreateReq) : Except ApiErr CatCreated × Store :=
  let nm := pyStrip req.name
  let slug0 := pyStrip req.slug
  let sl := if slug0.isEmpty then slugify nm else slug0
  let errors := catCreateErrors s nm sl req.parent
  if errors.isEmpty then
    let newOrder := get_max_order s req.parent + 1
    let m : Meta :=
      { mid := s.nextMid, mtype := MetaType.category, name := nm, slug := sl
        description := req.description, order := newOrder, parent := req.parent, count := 0 }
    (Except.ok
      { mid := s.nextMid, name := nm, slug := sl, description := req.description
        parent := req.parent, order := newOrder },
     { s with metas := s.metas ++ [m], nextMid := s.nextMid + 1 })
  else
    (Except.error (ApiErr.validation errors), s)

/-! ### Tag creation (`create_tag`) -/

/-- The JSON body of a tag-create request. -/
structure TagCreateReq where
  name : String
  slug : String
deriving DecidableEq, Repr

/-- The `tag` object of a successful create response. -/
structure TagCreated where
  mid : Int
  name : String
  slug : String
deriving DecidableEq, Repr

/-- Validation errors accumulated by `create_tag`: name and slug checks of
the tag kind (tags have no parent). -/
def tagCreateErrors (s : Store) (nm sl : String) : List String :=
  (if nm.isEmpty then ["name-empty"]
   else if nameExistsQ s MetaType.tag nm none then ["name-exists"] else [])
  ++ (if !validSlug sl then ["slug-format"]
      else if slugExistsQ s MetaType.tag sl none then ["slug-exists"] else [])

/-- `create_tag` of tags_edit.py: same name/slug validation as categories,
then insert with the literal defaults
`(description, count, order, parent) = ('', 0, 0, 0)`. -/
def create_tag (s : Store) (req : TagCreateReq) : Except ApiErr TagCreated × Store :=
  let nm := pyStrip req.name
  let slug0 := pyStrip req.slug
  let sl := if slug0.isEmpty then slugify nm else slug0
  let errors := tagCreateErrors s nm sl
  if errors.isEmpty then
    let m : Meta :=
      { mid := s.nextMid, mtype := MetaType.tag, name := nm, slug := sl
        description := "", order := 0, parent := 0, count := 0 }
    (Except.ok { mid := s.nextMid, name := nm, slug := sl },
     { s with metas := s.metas ++ [m], nextMid := s.nextMid + 1 })
  else
    (Except.error (ApiErr.validation errors), s)

/-! ### Category update (`update_category`) -/

/-- The `description` field of an update body distinguishes three JSON
shapes: key absent (Python default `''`), key present with `null`
(Python `None`), and key present with a string. -/
inductive DescField
  | absent
  | nullv
  | val (d : String)
deriving DecidableEq, Repr

/-- The JSON body of a category-update request.  `name = none` / `slug =
none` model an absent key (Python default `''`); `parent = none` models an
absent or null key (`data.get('parent', None)`). -/
structure CatUpdateReq where
  name : Option String
  slug : Option String
  description : DescField
  parent : Option Int
deriving DecidableEq, Repr

/-- The two 200 responses of the update handlers. -/
inductive UpdateOk
  | updated
  | nothingToUpdate
deriving DecidableEq, Repr

/-- Validation errors accumulated by `update_category`: name is validated
unconditionally, slug only when supplied (non-empty after stripping),
parent only when present; the duplicate probes exclude the target id. -/
def catUpdateErrors (s : Store) (mid : Int) (nm sl : String) (parent : Option Int) :
    List String :=
  (if nm.isEmpty then ["name-empty"]
   else if nameExistsQ s MetaType.category nm (some mid) then ["name-exists"] else [])
  ++ (if !sl.isEmpty then
        if !validSlug sl then ["slug-format"]
        else if slugExistsQ s MetaType.category sl (some mid) then ["slug-exists"]
        else []
      else [])
  ++ (match parent with
      | none => []
      | some p =>
        if p < 0 then ["parent-invalid"]
        else if p > 0 && !categoryExistsQ s p then ["parent-missing"]
        else [])

/-- `update_category` of category_edit.py.  Note what the source does, not
what the spec asks: `name` is validated unconditionally (an absent name is
the "name-empty" error); an absent `description` key defaults to `''` and,
being not `None`, is written back, clearing the stored description; the
cycle check on `parent` is absent (the source leaves it as a TODO). -/
def update_category (s : Store) (mid : Int) (req : CatUpdateReq) :
    Except ApiErr UpdateOk × Store :=
  if !categoryExistsQ s mid then (Except.error ApiErr.notFound, s)
  else
    let nm := pyStrip (req.name.getD "")
    let sl := pyStrip (req.slug.getD "")
    let errors := catUpdateErrors s mid nm sl req.parent
    if !errors.isEmpty then (Except.error (ApiErr.validation errors), s)
    else
      match findCategory s mid with
      | none => (Except.error ApiErr.notFound, s)
      | some cur =>
        let setName := !nm.isEmpty
        let setSlug := !sl.isEmpty
        let descUpd : Option String :=
          match req.description with
          | DescField.absent => some ""
          | DescField.nullv => none
          | DescField.val d => some d
        let orderUpd : Option Int :=
          match req.parent with
          | some p => if p != cur.parent then some (get_max_order s p + 1) else none
          | none => none
        if !(setName || setSlug || descUpd.isSome || req.parent.isSome) then
          (Except.ok UpdateOk.nothingToUpdate, s)
        else
          let apply1 (m : Meta) : Meta :=
            if m.mid == mid && m.mtype == MetaType.category then
              { m with
                name := if setName then nm else m.name
                slug := if setSlug then sl else m.slug
                description := descUpd.getD m.description
                parent := req.parent.getD m.parent
                order := orderUpd.getD m.order }
            else m
          (Except.ok UpdateOk.updated, { s with metas := s.metas.map apply1 })

/-! ### Category deletion (`delete_category`) -/

/-- `delete_category` of category_edit.py: delete the node row, delete every
relationship row referencing it, then reparent its category children to its
former parent (order values untouched). -/
def delete_category (s : Store) (mid : Int) : Except ApiErr Unit × Store :=
  if !categoryExistsQ s mid then (Except.error ApiErr.notFound, s)
  else
    match findCategory s mid with
    | none => (Except.error ApiErr.notFound, s)
    | some cur =>
      let deletedParent := cur.parent
      let metas1 := s.metas.filter fun m => !(m.mid == mid && m.mtype == MetaType.category)
      let rels1 := s.rels.filter fun r => r.mid != mid
      let metas2 := metas1.map fun m =>
        if m.parent == mid && m.mtype == MetaType.category then
          { m with parent := deletedParent }
        else m
      (Except.ok (), { s with metas := metas2, rels := rels1 })

/-! ### Content creation (`create_post` of post_edit.py) -/

/-- The JSON body of a post-create request, restricted to the fields the
taxonomy engine reads.  `tags = none` models an absent or non-list `tags`
value (both skip tag processing); entries of the list are integers — a
digit-string entry behaves as its value and a non-digit entry is dropped by
the `isdigit` filter, which on plain integers keeps exactly the
non-negative ones. -/
structure PostCreateReq where
  title : String
  text : String
  categoryIds : List Int
  tags : Option (List Int)
  status : String
deriving DecidableEq, Repr

/-- One iteration of the category loop of `create_post`: if a category with
this id exists, insert the relationship row and bump the category's count. -/
def linkCat (pid : Int) (s : Store) (catId : Int) : Store :=
  if categoryExistsQ s catId then
    { s with
      rels := s.rels ++ [{ cid := pid, mid := catId }]
      metas := s.metas.map fun m =>
        if m.mid == catId && m.mtype == MetaType.category then
          { m with count := m.count + 1 }
        else m }
  else s

/-- One iteration of the tag loop of `create_post`: if a tag with this id
exists, insert the relationship row and bump the tag's count; otherwise
only a warning is logged. -/
def linkTag (pid : Int) (s : Store) (tagId : Int) : Store :=
  if tagExistsQ s tagId then
    { s with
      rels := s.rels ++ [{ cid := pid, mid := tagId }]
      metas := s.metas.map fun m =>
        if m.mid == tagId && m.mtype == MetaType.tag then
          { m with count := m.count + 1 }
        else m }
  else s

/-- Common shape of the two link loops of `create_post`: if a node of kind
`t` with this id exists, insert the relationship row and bump its count. -/
def linkGen (t : MetaType) (pid : Int) (s : Store) (nid : Int) : Store :=
  if s.metas.any (fun m => m.mtype == t && m.mid == nid) then
    { s with
      rels := s.rels ++ [{ cid := pid, mid := nid }]
      metas := s.metas.map fun m =>
        if m.mid == nid && m.mtype == t then
          { m with count := m.count + 1 }
        else m }
  else s

/-- `create_post` of post_edit.py: insert the content row (always with
`type = 'post'` and the requested status), then link categories and tags.
Both loops increment counts regardless of the post's status. -/
def create_post (s : Store) (req : PostCreateReq) : Except ApiErr Int × Store :=
  if req.title.isEmpty || req.text.isEmpty then
    (Except.error (ApiErr.validation ["title-text-required"]), s)
  else
    let pid := s.nextCid
    let s1 : Store :=
      { s with
        contents := s.contents ++ [{ cid := pid, ctype := "post", status := req.status, parent := 0 }]
        nextCid := s.nextCid + 1 }
    let s2 := req.categoryIds.foldl (linkCat pid) s1
    let s3 :=
      match req.tags with
      | some ts => (ts.filter fun n => 0 ≤ n).foldl (linkTag pid) s2
      | none => s2
    (Except.ok pid, s3)

/-! ### Content deletion (`delete_post` of post_edit.py)

The comment/field cleanup steps (5 and 7) touch tables outside the model;
steps 2, 3, 4, 6 and 8 are modelled in source order. -/

/-- One iteration of step 3 of `delete_post`: delete the relationship rows
`(cid, mid0)` and, if the deleted post was a published post, decrement the
count of the **category** with that mid (the `type = 'category'` filter of
the UPDATE). -/
def delStepCat (pid : Int) (published : Bool) (s : Store) (mid0 : Int) : Store :=
  let s1 : Store :=
    { s with rels := s.rels.filter fun r => !(r.cid == pid && r.mid == mid0) }
  if published then
    { s1 with
      metas := s1.metas.map fun m =>
        if m.mid == mid0 && m.mtype == MetaType.category then
          { m with count := m.count - 1 }
        else m }
  else s1

/-- Common shape of the two per-mid steps of `delete_post`: delete the
relationship rows `(pid, mid0)` and, when the deleted post was a published
post, decrement the count of the node with that mid and kind `t`. -/
def delStepGen (t : MetaType) (pid : Int) (published : Bool) (s : Store) (mid0 : Int) : Store :=
  let s1 : Store :=
    { s with rels := s.rels.filter fun r => !(r.cid == pid && r.mid == mid0) }
  if published then
    { s1 with
      metas := s1.metas.map fun m =>
        if m.mid == mid0 && m.mtype == t then
          { m with count := m.count - 1 }
        else m }
  else s1

/-- One iteration of step 4 of `delete_post`: same as step 3 but the count
decrement targets tags. -/
def delStepTag (pid : Int) (published : Bool) (s : Store) (mid0 : Int) : Store :=
  let s1 : Store :=
    { s with rels := s.rels.filter fun r => !(r.cid == pid && r.mid == mid0) }
  if published then
    { s1 with
      metas := s1.metas.map fun m =>
        if m.mid == mid0 && m.mtype == MetaType.tag then
          { m with count := m.count - 1 }
        else m }
  else s1

/-- Mids of the relationship rows of one content item, in row order and
with multiplicity — the working list of steps 3 and 4 of `delete_post`. -/
def relMidsOf (s : Store) (pid : Int) : List Int :=
  (s.rels.filter fun r => r.cid == pid).map Rel.mid

/-- Step 2 of `delete_post`: delete the content rows with this cid. -/
def delPostStage1 (s : Store) (pid : Int) : Store :=
  { s with contents := s.contents.filter fun c => c.cid != pid }

/-- Step 3 of `delete_post`: fetch all relationship mids of the post and
run the per-mid delete/decrement loop (category decrements). -/
def delPostStage2 (s : Store) (pid : Int) (published : Bool) : Store :=
  (relMidsOf (delPostStage1 s pid) pid).foldl (delStepCat pid published)
    (delPostStage1 s pid)

/-- Step 4 of `delete_post`: re-fetch the relationship mids (now an empty
list, since step 3 deleted every row of the post) and run the tag loop. -/
def delPostStage3 (s : Store) (pid : Int) (published : Bool) : Store :=
  (relMidsOf (delPostStage2 s pid published) pid).foldl (delStepTag pid published)
    (delPostStage2 s pid published)

/-- Step 6 of `delete_post`: unattach attachment children. -/
def delPostStage4 (s : Store) (pid : Int) (published : Bool) : Store :=
  { delPostStage3 s pid published with
    contents := (delPostStage3 s pid published).contents.map fun c =>
      if c.parent == pid && c.ctype == "attachment" then
        { c with parent := 0, status := "publish" }
      else c }

/-- Steps 2–8 of `delete_post` once the post row has been found, with
`published` the already-evaluated condition
`status == 'publish' and type == 'post'`; step 8 removes the first draft
child together with its relationship rows. -/
def deletePostCascade (s : Store) (pid : Int) (published : Bool) : Store :=
  match (delPostStage4 s pid published).contents.find?
      (fun c => c.parent == pid && c.ctype == "post_draft") with
  | some draft =>
    { delPostStage4 s pid published with
      contents := (delPostStage4 s pid published).contents.filter
        fun c => c.cid != draft.cid
      rels := (delPostStage4 s pid published).rels.filter
        fun r => r.cid != draft.cid }
  | none => delPostStage4 s pid published

/-- `delete_post` of post_edit.py.  Step 3 fetches **all** relationship rows
of the post (the SELECT has no kind filter) and deletes each of them, so
the step-4 re-query runs over an already emptied relation list. -/
def delete_post (s : Store) (pid : Int) : Except ApiErr Unit × Store :=
  match s.contents.find? (fun c => c.cid == pid && (c.ctype == "post" || c.ctype == "post_draft")) with
  | none => (Except.error ApiErr.notFound, s)
  | some post =>
    (Except.ok (), deletePostCascade s pid (post.status == "publish" && post.ctype == "post"))

/-! ### Tag maintenance sweep (`refresh_tags` of tags_edit.py) -/

/-- The correlated subquery of the refresh UPDATE:
`COUNT(*)` over relationships of the node joined with published posts. -/
def publishedLinkCount (s : Store) (mid0 : Int) : Nat :=
  ((s.rels.filter fun r => r.mid == mid0).map fun r =>
    (s.contents.filter fun c =>
      c.cid == r.cid && c.ctype == "post" && c.status == "publish").length).sum

/-- `refresh_tags`: recompute every tag's count from scratch, then delete
every tag whose recomputed count is 0, returning the new store and the
number of deleted tags (the `rowcount` of the DELETE). -/
def refresh_tags (s : Store) : Store × Nat :=
  let metas1 := s.metas.map fun m =>
    if m.mtype == MetaType.tag then
      { m with count := (publishedLinkCount s m.mid : Int) }
    else m
  let deleted := (metas1.filter fun m => m.mtype == MetaType.tag && m.count == 0).length
  let metas2 := metas1.filter fun m => !(m.mtype == MetaType.tag && m.count == 0)
  ({ s with metas := metas2 }, deleted)

/-! ### Batch tag deletion (`delete_tag` of tags_edit.py, list body) -/

/-- A JSON value appearing in the `mids` list of a batch delete: an
integer, a string, or anything else (`other` covers values on which
Python's `int()` raises, e.g. lists or null). -/
inductive JsonEntry
  | int (n : Int)
  | str (st : String)
  | other
deriving DecidableEq, Repr

/-- Value of a digit run (most significant first). -/
def digitsToNat (cs : List Char) : Nat :=
  cs.foldl (fun a c => a * 10 + (c.toNat - '0'.toNat)) 0

/-- Python `int()` applied to a string: strip whitespace, optional sign,
then a non-empty digit run (underscore separators are not modelled; no
claim input uses them). -/
def parsePyIntStr (st : String) : Option Int :=
  match (pyStrip st).toList with
  | [] => none
  | c :: rest =>
    if c == '-' then
      if !rest.isEmpty && rest.all Char.isDigit then some (-(digitsToNat rest : Int)) else none
    else if c == '+' then
      if !rest.isEmpty && rest.all Char.isDigit then some (digitsToNat rest : Int) else none
    else if (c :: rest).all Char.isDigit then some (digitsToNat (c :: rest) : Int)
    else none

/-- Python `int(mid_item)` over a JSON entry: `none` models the
ValueError/TypeError branch that silently skips the entry. -/
def pyInt : JsonEntry → Option Int
  | JsonEntry.int n => some n
  | JsonEntry.str st => parsePyIntStr st
  | JsonEntry.other => none

/-- The validated id list of a batch delete: entries convertible by `int()`
whose value names an existing tag (checked against the store before any
deletion happens). -/
def batchMids (s : Store) (entries : List JsonEntry) : List Int :=
  entries.filterMap fun e =>
    match pyInt e with
    | some n => if tagExistsQ s n then some n else none
    | none => none

/-- One iteration of the deletion loop: delete the tag row and every
relationship row referencing it. -/
def delete_one_tag (s : Store) (tagMid : Int) : Store :=
  { s with
    metas := s.metas.filter fun m => !(m.mid == tagMid && m.mtype == MetaType.tag)
    rels := s.rels.filter fun r => r.mid != tagMid }

/-- The batch branch of `delete_tag`: filter the input list down to
existing-tag ids, 404 when nothing remains, otherwise delete each and
report the count. -/
def delete_tag_batch (s : Store) (entries : List JsonEntry) : Except ApiErr Nat × Store :=
  let ms := batchMids s entries
  if ms.isEmpty then (Except.error ApiErr.notFound, s)
  else (Except.ok ms.length, ms.foldl delete_one_tag s)

/-! ### Verification layer: store well-formedness notions -/

/-- Number of relationship rows referencing the node id `mid0`. -/
def relCountTo (s : Store) (mid0 : Int) : Nat :=
  (s.rels.filter fun r => r.mid == mid0).length

/-- Well-formedness: no two taxonomy rows share a `mid` (the column is the
table's auto-increment primary key). -/
def midsUnique (s : Store) : Prop :=
  s.metas.Pairwise fun a b => a.mid ≠ b.mid

/-- Consistency bound relating counts to links: every node's stored count
is at least the number of relationship rows referencing it.  It holds for
the empty store and is preserved by the content lifecycle operations. -/
def countInv (s : Store) : Prop :=
  ∀ m ∈ s.metas, (relCountTo s m.mid : Int) ≤ m.count

/-- Under `midsUnique`, two stored rows with the same mid are the same
row. -/
theorem mem_unique_mid {s : Store} (hu : midsUnique s) {a b : Meta}
    (ha : a ∈ s.metas) (hb : b ∈ s.metas) (h : a.mid = b.mid) : a = b := by
  by_contra hne
  have hsym : Symmetric fun a b : Meta => a.mid ≠ b.mid :=
    fun _ _ hxy e => hxy e.symm
  exact List.Pairwise.forall hsym hu ha hb hne h

/-! ### Example stores used by the concrete theorems -/

/-- An empty store (no rows, counters at 1). -/
def emptyStore : Store := ⟨[], [], [], 1, 1⟩

/-- Two categories: mid 1 at the root and mid 2 whose parent is 1. -/
def exTwoCats : Store :=
  ⟨[⟨1, MetaType.category, "a", "a", "", 1, 0, 0⟩,
    ⟨2, MetaType.category, "b", "b", "", 1, 1, 0⟩], [], [], 3, 1⟩

/-- One category with count 0 that is nevertheless referenced by a link of
the published post 1 (a drifted state). -/
def exDriftStore : Store :=
  ⟨[⟨1, MetaType.category, "c", "c", "", 1, 0, 0⟩],
   [⟨1, 1⟩], [⟨1, "post", "publish", 0⟩], 2, 2⟩

/-- One tag with mid 1 and count 0; no posts yet. -/
def exOneTagStore : Store :=
  ⟨[⟨1, MetaType.tag, "t", "t", "", 0, 0, 0⟩], [], [], 2, 1⟩

/-- The store after creating a published post linked to tag 1 in
`exOneTagStore`. -/
def exAfterCreate : Store :=
  (create_post exOneTagStore ⟨"t", "x", [], some [1], "publish"⟩).snd

/-- The store after deleting that post again. -/
def exAfterDelete : Store := (delete_post exAfterCreate 1).snd

/-- One category with mid 1 whose description is the non-empty string
`"d"`. -/
def exDescStore : Store :=
  ⟨[⟨1, MetaType.category, "a", "a", "d", 1, 0, 0⟩], [], [], 2, 1⟩

/-- One tag with mid 5, referenced by one relationship row. -/
def exTag5Store : Store :=
  ⟨[⟨5, MetaType.tag, "t", "t", "", 0, 0, 0⟩], [⟨9, 5⟩], [], 6, 1⟩

/-- A faulted connection over `exTwoCats`: every query on it raises. -/
def exFaultConn : Conn := ⟨exTwoCats, some DbErr.queryFailed⟩

/-! ### C1 — cycle prevention on parent reassignment -/

/-- C1: the claim says an update that sets a category's `parent` to one of
its own descendants is rejected with a ValidationError by walking the
ancestor chain, leaving the stored parent unchanged.  The code omits the
cycle check (a TODO in `update_category`): with category 2 a child of
category 1, updating category 1's parent to 2 succeeds and stores the
cycle-creating parent. -/
theorem c1_cycle_update_accepted :
    (update_category exTwoCats 1 ⟨some "a", none, DescField.nullv, some 2⟩).fst
        = Except.ok UpdateOk.updated
  ∧ ((update_category exTwoCats 1 ⟨some "a", none, DescField.nullv, some 2⟩).snd.metas.map
        fun m => (m.mid, m.parent)) = [(1, 2), (2, 1)] :=
  ⟨rfl, rfl⟩

/-! ### C2 — reference counts never negative / decrement clamped at 0 -/

/-- C2 counterexample: the decrement of `delete_post` is `count = count - 1`
with no clamp, so from a store where a node's count is 0 while a published
link to it still exists, one delete drives the count to -1.  (Such a store
is not reachable from a consistent one — see the amended theorem.) -/
theorem c2_decrement_not_clamped :
    ((delete_post exDriftStore 1).snd.metas.map Meta.count) = [(-1 : Int)]
  ∧ (-1 : Int) < 0 :=
  ⟨rfl, by decide⟩

/-! ### C3 — create-then-delete balance of reference counts -/

/-- C3: the claim says creating then deleting the same published content
returns every referenced node's count to its pre-creation value.  This
fails for tags: step 3 of `delete_post` fetches and deletes **all**
relationship rows of the post (its SELECT has no kind filter), so the
step-4 re-query that should decrement tag counts sees an empty list and
never decrements.  Creating a published post linked to tag 1 (count 0 → 1)
and deleting it leaves the tag's count at 1, not 0. -/
theorem c3_tag_count_not_restored :
    (exOneTagStore.metas.map Meta.count = [0])
  ∧ (exAfterCreate.metas.map Meta.count = [1])
  ∧ (exAfterDelete.rels = [])
  ∧ (exAfterDelete.metas.map Meta.count = [1]) :=
  ⟨rfl, rfl, rfl, rfl⟩

/-! ### C4 — storage failures surfaced as StorageError -/

/-- C4: the claim (and the spec) require every storage failure under the
existence/uniqueness/max-order probes to surface as a StorageError.  The
code catches the exception and returns the default answer instead: on a
faulted connection `category_exists`/`tag_exists`/`name_exists`/
`slug_exists` report `false` (here even though the row exists) and
`get_max_order` reports 0 (here even though the true maximum is 1). -/
theorem c4_storage_error_silently_defaulted :
    category_exists exFaultConn 1 = false
  ∧ categoryExistsQ exTwoCats 1 = true
  ∧ tag_exists ⟨exTag5Store, some DbErr.queryFailed⟩ 5 = false
  ∧ tagExistsQ exTag5Store 5 = true
  ∧ name_exists exFaultConn MetaType.category "a" none = false
  ∧ nameExistsQ exTwoCats MetaType.category "a" none = true
  ∧ slug_exists exFaultConn MetaType.category "a" none = false
  ∧ slugExistsQ exTwoCats MetaType.category "a" none = true
  ∧ get_max_order_conn exFaultConn 0 = 0
  ∧ get_max_order exTwoCats 0 = 1 :=
  ⟨rfl, rfl, rfl, rfl, rfl, rfl, rfl, rfl, rfl, rfl⟩

/-! ### C6 — order assignment on creation (counterexample half) -/

/-- C6 counterexample: the claim covers tags as well, but `create_tag`
inserts the literal `order = 0`.  On an empty store the claimed order of
the first tag would be 1 (empty bucket); the stored order is 0. -/
theorem c6_tag_order_is_zero :
    ((create_tag emptyStore ⟨"a", ""⟩).snd.metas.map Meta.order) = [0]
  ∧ (0 : Int) ≠ 1 :=
  ⟨rfl, by decide⟩

/-! ### C8 — partial updates (counterexample half) -/

/-- C8 counterexample: the claim says an update may supply any subset of
the fields, including one without `name`.  Supplying only `slug` to
`update_category` is rejected with the "name empty" validation error. -/
theorem c8_update_without_name_rejected :
    (update_category exDescStore 1 ⟨none, some "b", DescField.nullv, none⟩).fst
      = Except.error (ApiErr.validation ["name-empty"]) :=
  rfl

/-! ### C9 — unchanged update is a no-op (counterexample half) -/

/-- C9 counterexample: the claim says an update whose supplied fields all
equal the current state leaves the stored state untouched.  Supplying only
the current name (and no `description` key) returns success but clears the
stored description from "d" to "", mutating the store. -/
theorem c9_unchanged_update_mutates_description :
    (update_category exDescStore 1 ⟨some "a", none, DescField.absent, none⟩).fst
      = Except.ok UpdateOk.updated
  ∧ ((update_category exDescStore 1 ⟨some "a", none, DescField.absent, none⟩).snd.metas.map
        Meta.description) = [""]
  ∧ (update_category exDescStore 1 ⟨some "a", none, DescField.absent, none⟩).snd
      ≠ exDescStore :=
  ⟨rfl, rfl, by decide⟩

/-! ### C10 — batch tag delete (counterexample half) -/

/-- C10 counterexample: the claim says every entry that is not an integer
is silently skipped, and that the call fails with NotFound exactly when no
entry names an existing tag.  The code applies Python `int()` to each
entry, so the string entry `"5"` — not an integer — is converted to 5 and
deletes the existing tag 5 (with its relationship rows), returning success
instead of skipping it and failing with NotFound. -/
theorem c10_string_entry_not_skipped :
    (delete_tag_batch exTag5Store [JsonEntry.str "5"]).fst = Except.ok 1
  ∧ (delete_tag_batch exTag5Store [JsonEntry.str "5"]).snd.metas = []
  ∧ (delete_tag_batch exTag5Store [JsonEntry.str "5"]).snd.rels = [] :=
  ⟨rfl, rfl, rfl⟩

/-! ### C7 — idempotence of the tag maintenance sweep -/

/-- Characterization of a store produced by one sweep: every surviving tag
carries exactly its recomputed published-link count, and that count is
non-zero. -/
theorem refresh_tags_char (s : Store) :
    ∀ m ∈ (refresh_tags s).fst.metas,
      (m.mtype == MetaType.tag && m.count == 0) = false
      ∧ ((m.mtype == MetaType.tag) = true →
          m.count = (publishedLinkCount s m.mid : Int)) := by
  intro m hm
  have hm' : m ∈ ((s.metas.map fun m0 =>
      if m0.mtype == MetaType.tag then
        { m0 with count := (publishedLinkCount s m0.mid : Int) }
      else m0).filter
      fun m0 => !(m0.mtype == MetaType.tag && m0.count == 0)) := hm
  rw [List.mem_filter] at hm'
  obtain ⟨hmem, hp⟩ := hm'
  refine ⟨?_, ?_⟩
  · cases h : (m.mtype == MetaType.tag && m.count == 0)
    · rfl
    · rw [h] at hp
      exact absurd hp (by decide)
  · intro ht
    rw [List.mem_map] at hmem
    obtain ⟨m0, _, hemk⟩ := hmem
    by_cases h0 : (m0.mtype == MetaType.tag) = true
    · rw [if_pos h0] at hemk
      subst hemk
      rfl
    · rw [if_neg h0] at hemk
      subst hemk
      exact absurd ht h0

/-- C7: the tag maintenance sweep is idempotent — run on the store it just
produced, `refresh_tags` deletes zero tags and returns the store
unchanged. -/
theorem c7_refresh_tags_idempotent (s : Store) :
    refresh_tags (refresh_tags s).fst = ((refresh_tags s).fst, 0) := by
  have hchar := refresh_tags_char s
  set s1 := (refresh_tags s).fst with hs1
  have hmap : (s1.metas.map fun m =>
      if m.mtype == MetaType.tag then
        { m with count := (publishedLinkCount s1 m.mid : Int) }
      else m) = s1.metas := by
    have hid : ∀ m ∈ s1.metas,
        (if m.mtype == MetaType.tag then
          { m with count := (publishedLinkCount s1 m.mid : Int) }
        else m) = id m := by
      intro m hm
      by_cases h0 : (m.mtype == MetaType.tag) = true
      · rw [if_pos h0]
        show { m with count := (publishedLinkCount s m.mid : Int) } = m
        rw [← (hchar m hm).2 h0]
      · exact if_neg h0
    exact (List.map_congr_left hid).trans (List.map_id _)
  have hfilter : (s1.metas.filter fun m =>
      !(m.mtype == MetaType.tag && m.count == 0)) = s1.metas := by
    refine List.filter_eq_self.mpr fun m hm => ?_
    rw [(hchar m hm).1]
    rfl
  have hdel : (s1.metas.filter fun m =>
      (m.mtype == MetaType.tag && m.count == 0)).length = 0 := by
    rw [List.filter_eq_nil_iff.mpr fun m hm => by rw [(hchar m hm).1]; exact (by decide)]
    rfl
  show ({ s1 with metas := (s1.metas.map fun m =>
      if m.mtype == MetaType.tag then
        { m with count := (publishedLinkCount s1 m.mid : Int) }
      else m).filter fun m => !(m.mtype == MetaType.tag && m.count == 0) },
    ((s1.metas.map fun m =>
      if m.mtype == MetaType.tag then
        { m with count := (publishedLinkCount s1 m.mid : Int) }
      else m).filter fun m => (m.mtype == MetaType.tag && m.count == 0)).length)
    = (s1, 0)
  rw [hmap, hfilter, hdel]

/-! ### C5 — effect of deleting a category -/

/-- C5: deleting an existing category `X` (with stored row `cx`, so former
parent `cx.parent`) succeeds, removes the node (no remaining row carries
mid `X`), deletes exactly the relationship rows referencing `X`, and keeps
every other node with its fields intact except that nodes whose parent was
`X` now have parent `cx.parent`; in particular their order values are
unchanged.  Hypotheses: mids are unique, tags sit at the root (`parent =
0`, as every reachable store satisfies), and `X ≠ 0`. -/
theorem c5_delete_category_reparents (s : Store) (X : Int) (cx : Meta)
    (hu : midsUnique s)
    (hflat : ∀ m ∈ s.metas, m.mtype = MetaType.tag → m.parent = 0)
    (hX : X ≠ 0)
    (hfind : findCategory s X = some cx) :
    (delete_category s X).fst = Except.ok ()
  ∧ (∀ m' ∈ (delete_category s X).snd.metas, m'.mid ≠ X)
  ∧ (∀ r ∈ (delete_category s X).snd.rels, r.mid ≠ X)
  ∧ (∀ r ∈ s.rels, r.mid ≠ X → r ∈ (delete_category s X).snd.rels)
  ∧ (∀ m ∈ s.metas, m.mid ≠ X →
      ∃ m' ∈ (delete_category s X).snd.metas,
        m'.mid = m.mid ∧ m'.mtype = m.mtype ∧ m'.name = m.name ∧ m'.slug = m.slug
        ∧ m'.description = m.description ∧ m'.order = m.order ∧ m'.count = m.count
        ∧ m'.parent = (if m.parent = X then cx.parent else m.parent)) := by
  have hfind' : s.metas.find?
      (fun m => m.mid == X && m.mtype == MetaType.category) = some cx := hfind
  have hmemcx : cx ∈ s.metas := List.mem_of_find?_eq_some hfind'
  have hpred := List.find?_some hfind'
  simp only [Bool.and_eq_true, beq_iff_eq] at hpred
  obtain ⟨hmidcx, hcatcx⟩ := hpred
  have hex : categoryExistsQ s X = true := by
    rw [categoryExistsQ, List.any_eq_true]
    exact ⟨cx, hmemcx, by simp [hmidcx, hcatcx]⟩
  have heq : delete_category s X
      = (Except.ok (), { s with
          metas := (s.metas.filter fun m =>
              !(m.mid == X && m.mtype == MetaType.category)).map
            fun m => if m.parent == X && m.mtype == MetaType.category then
              { m with parent := cx.parent } else m,
          rels := s.rels.filter fun r => r.mid != X }) := by
    unfold delete_category
    rw [hex, hfind]
    rfl
  rw [heq]
  refine ⟨rfl, ?_, ?_, ?_, ?_⟩
  · intro m' hm'
    rw [List.mem_map] at hm'
    obtain ⟨m, hmf, hrep⟩ := hm'
    rw [List.mem_filter] at hmf
    obtain ⟨hmem, hcond⟩ := hmf
    have hmid' : m'.mid = m.mid := by
      rw [← hrep, apply_ite Meta.mid]
      simp
    rw [hmid']
    intro he
    have hnotcat : ¬ m.mtype = MetaType.category := by
      intro hcat
      rw [Bool.not_eq_eq_eq_not, Bool.not_true, Bool.and_eq_false_iff] at hcond
      rcases hcond with h | h
      · rw [beq_eq_false_iff_ne] at h
        exact h he
      · rw [beq_eq_false_iff_ne] at h
        exact h hcat
    exact hnotcat (mem_unique_mid hu hmem hmemcx (he.trans hmidcx.symm) ▸ hcatcx)
  · intro r hr
    rw [List.mem_filter] at hr
    exact bne_iff_ne.mp hr.2
  · intro r hr hne
    exact List.mem_filter.mpr ⟨hr, bne_iff_ne.mpr hne⟩
  · intro m hmem hne
    have hcond : (!(m.mid == X && m.mtype == MetaType.category)) = true := by
      have h1 : (m.mid == X) = false := beq_eq_false_iff_ne.mpr hne
      rw [h1, Bool.false_and, Bool.not_false]
    refine ⟨if m.parent == X && m.mtype == MetaType.category then
        { m with parent := cx.parent } else m,
      List.mem_map.mpr ⟨m, List.mem_filter.mpr ⟨hmem, hcond⟩, rfl⟩, ?_⟩
    by_cases hc : (m.parent == X && m.mtype == MetaType.category) = true
    · rw [if_pos hc]
      rw [Bool.and_eq_true, beq_iff_eq, beq_iff_eq] at hc
      refine ⟨rfl, rfl, rfl, rfl, rfl, rfl, rfl, ?_⟩
      show cx.parent = if m.parent = X then cx.parent else m.parent
      rw [if_pos hc.1]
    · rw [if_neg hc]
      have hpne : m.parent ≠ X := by
        intro hp
        apply hc
        rw [Bool.and_eq_true, beq_iff_eq, beq_iff_eq]
        refine ⟨hp, ?_⟩
        cases hmt : m.mtype with
        | category => rfl
        | tag =>
          exact absurd (hp.symm.trans (hflat m hmem hmt)) hX
      refine ⟨rfl, rfl, rfl, rfl, rfl, rfl, rfl, ?_⟩
      show m.parent = if m.parent = X then cx.parent else m.parent
      rw [if_neg hpne]

/-- Example tree for the C5 witness: category 1 has parent 9 and children
2 and 3; two relationship rows reference category 1... actually rows
`(7,1)` and `(7,2)` reference nodes 1 and 2. -/
def exC5Store : Store :=
  ⟨[⟨9, MetaType.category, "p", "p", "", 1, 0, 0⟩,
    ⟨1, MetaType.category, "x", "x", "", 1, 9, 0⟩,
    ⟨2, MetaType.category, "A", "A", "", 1, 1, 0⟩,
    ⟨3, MetaType.category, "B", "B", "", 2, 1, 0⟩],
   [⟨7, 1⟩, ⟨7, 2⟩], [], 10, 1⟩

/-- C5 witness: the deletion theorem applied to the concrete tree — the
call succeeds, node 1 is gone and no relationship row references it. -/
theorem c5_witness :
    (delete_category exC5Store 1).fst = Except.ok ()
  ∧ (∀ m ∈ (delete_category exC5Store 1).snd.metas, m.mid ≠ 1)
  ∧ (∀ r ∈ (delete_category exC5Store 1).snd.rels, r.mid ≠ 1) := by
  have h := c5_delete_category_reparents exC5Store 1
    ⟨1, MetaType.category, "x", "x", "", 1, 9, 0⟩
    (by unfold midsUnique; decide) (by decide) (by decide) rfl
  exact ⟨h.1, h.2.1, h.2.2.1⟩

/-! ### C6 — order assignment on creation (amended theorem) -/

/-- Bridge between the source's `get_max_order(parent) + 1` (with its
Python falsy handling of NULL and 0) and the claim's "1 plus the bucket
maximum, or 1 on an empty bucket". -/
theorem get_max_order_succ (s : Store) (p : Int) :
    get_max_order s p + 1 = (match ((s.metas.filter fun m =>
        m.mtype == MetaType.category && m.parent == p).map Meta.order).max? with
      | none => 1
      | some v => v + 1) := by
  unfold get_max_order
  cases hmo : maxOrderQ s MetaType.category p with
  | none =>
    have hmo' : ((s.metas.filter fun m =>
        m.mtype == MetaType.category && m.parent == p).map Meta.order).max? = none := hmo
    simp [hmo']
  | some v =>
    have hmo' : ((s.metas.filter fun m =>
        m.mtype == MetaType.category && m.parent == p).map Meta.order).max? = some v := hmo
    rw [hmo']
    show (if (v == 0) = true then 0 else v) + 1 = v + 1
    by_cases hv : (v == 0) = true
    · rw [if_pos hv, beq_iff_eq.mp hv]
    · rw [if_neg hv]

/-- C6 (amended): for every successful category create, the returned order
is one more than the maximum order among the pre-existing categories with
the same parent (1 when that bucket is empty); tags, however, are always
stored with order 0, not with a bucket-based order. -/
theorem c6_order_assignment :
    (∀ (s : Store) (req : CatCreateReq) (resp : CatCreated) (s' : Store),
        create_category s req = (Except.ok resp, s') →
        resp.order = (match ((s.metas.filter fun m =>
            m.mtype == MetaType.category && m.parent == req.parent).map
              Meta.order).max? with
          | none => 1
          | some v => v + 1))
  ∧ (∀ (s : Store) (req : TagCreateReq) (resp : TagCreated) (s' : Store),
        create_tag s req = (Except.ok resp, s') →
        ∃ m ∈ s'.metas,
          m.mid = resp.mid ∧ m.mtype = MetaType.tag ∧ m.order = 0 ∧ m.parent = 0) := by
  constructor
  · intro s req resp s' h
    simp only [create_category] at h
    repeat' split at h
    all_goals rw [Prod.mk.injEq] at h
    all_goals obtain ⟨h1, _⟩ := h
    all_goals first
      | exact Except.noConfusion h1
      | (injection h1 with h1
         subst h1
         exact get_max_order_succ s req.parent)
  · intro s req resp s' h
    simp only [create_tag] at h
    repeat' split at h
    all_goals rw [Prod.mk.injEq] at h
    all_goals obtain ⟨h1, h2⟩ := h
    all_goals first
      | exact Except.noConfusion h1
      | (injection h1 with h1
         subst h1
         subst h2
         exact ⟨_, List.mem_append.mpr (Or.inr (List.mem_singleton.mpr rfl)),
           rfl, rfl, rfl, rfl⟩)

/-- C6 witness: on the empty store the first category gets order 1 (the
bucket-max rule with an empty bucket) and the first tag is stored with
order 0. -/
theorem c6_order_witness :
    (⟨1, "a", "a", "", 0, 1⟩ : CatCreated).order = 1
  ∧ ∃ m ∈ (create_tag emptyStore ⟨"a", ""⟩).snd.metas,
      m.mid = 1 ∧ m.mtype = MetaType.tag ∧ m.order = 0 ∧ m.parent = 0 := by
  constructor
  · have h := c6_order_assignment.1 emptyStore ⟨"a", "", "", 0⟩ ⟨1, "a", "a", "", 0, 1⟩ _ rfl
    exact h.trans (by rfl)
  · exact c6_order_assignment.2 emptyStore ⟨"a", ""⟩ ⟨1, "a", "a"⟩ _ rfl

/-! ### C8 — partial updates (amended theorem) -/

/-- C8 (amended): an update must always supply a non-empty `name` (a
subset without it is rejected, see the counterexample); given a valid name
and no other fields, the update succeeds, the omitted `slug`, `parent` and
`order` are preserved, but the omitted `description` is **cleared to the
empty string** rather than preserved. -/
theorem c8_update_name_only_effect (s : Store) (mid : Int) (cur : Meta) (nm : String)
    (hex : categoryExistsQ s mid = true)
    (hcur : findCategory s mid = some cur)
    (hne : (pyStrip nm).isEmpty = false)
    (hdup : nameExistsQ s MetaType.category (pyStrip nm) (some mid) = false) :
    update_category s mid ⟨some nm, none, DescField.absent, none⟩
      = (Except.ok UpdateOk.updated,
         { s with metas := s.metas.map fun m =>
            if m.mid == mid && m.mtype == MetaType.category then
              { m with name := pyStrip nm, description := "" }
            else m }) := by
  have hsl : (pyStrip "").isEmpty = true := rfl
  have herr : catUpdateErrors s mid (pyStrip nm) (pyStrip "") none = [] := by
    unfold catUpdateErrors
    rw [hne, hdup, hsl]
    simp
  simp only [update_category, Option.getD_some, Option.getD_none, hex, Bool.not_true,
    Bool.false_eq_true, if_false, herr, hcur, hne, hsl]
  simp

/-- C8 witness: the amended theorem applied to the one-category store — a
name-only update succeeds, keeps slug/parent/order, clears description. -/
theorem c8_update_name_only_witness :
    update_category exDescStore 1 ⟨some "z", none, DescField.absent, none⟩
      = (Except.ok UpdateOk.updated,
         { exDescStore with metas := exDescStore.metas.map fun m =>
            if m.mid == 1 && m.mtype == MetaType.category then
              { m with name := pyStrip "z", description := "" }
            else m }) :=
  c8_update_name_only_effect exDescStore 1
    ⟨1, MetaType.category, "a", "a", "d", 1, 0, 0⟩ "z" rfl rfl rfl rfl

/-! ### C9 — unchanged update is a no-op (amended theorem) -/

/-- C9 (amended): an update that supplies `name` and `description` equal to
the node's current values (omitting slug and parent) returns success and
leaves the store exactly unchanged; the original claim fails only because
an omitted `description` is cleared instead of preserved, so "no supplied
field differs" is a no-op only when `description` is among the supplied
fields (or already empty). -/
theorem c9_unchanged_update_noop (s : Store) (mid : Int) (cur : Meta)
    (hu : midsUnique s)
    (hex : categoryExistsQ s mid = true)
    (hcur : findCategory s mid = some cur)
    (hstab : pyStrip cur.name = cur.name)
    (hne : cur.name.isEmpty = false)
    (hdup : nameExistsQ s MetaType.category cur.name (some mid) = false) :
    update_category s mid ⟨some cur.name, none, DescField.val cur.description, none⟩
      = (Except.ok UpdateOk.updated, s) := by
  have hsl : (pyStrip "").isEmpty = true := rfl
  have hmemcur : cur ∈ s.metas := List.mem_of_find?_eq_some (hcur : s.metas.find? _ = some cur)
  have hpredcur := List.find?_some (hcur : s.metas.find? _ = some cur)
  simp only [Bool.and_eq_true, beq_iff_eq] at hpredcur
  obtain ⟨hmidcur, hcatcur⟩ := hpredcur
  have herr : catUpdateErrors s mid cur.name (pyStrip "") none = [] := by
    unfold catUpdateErrors
    rw [hne, hdup, hsl]
    simp
  have hmap : (s.metas.map fun m =>
      if m.mid = mid ∧ m.mtype = MetaType.category then
        { m with name := cur.name, description := cur.description }
      else m) = s.metas := by
    have hid : ∀ m ∈ s.metas,
        (if m.mid = mid ∧ m.mtype = MetaType.category then
          { m with name := cur.name, description := cur.description }
        else m) = id m := by
      intro m hm
      by_cases hc : m.mid = mid ∧ m.mtype = MetaType.category
      · rw [if_pos hc]
        have hmcur : m = cur := mem_unique_mid hu hm hmemcur (hc.1.trans hmidcur.symm)
        subst hmcur
        rfl
      · exact if_neg hc
    exact (List.map_congr_left hid).trans (List.map_id _)
  simp only [update_category, Option.getD_some, Option.getD_none, hex, Bool.not_true,
    Bool.false_eq_true, if_false, hstab, herr, hcur, hne, hsl]
  simp [herr, hmap]

/-- C9 witness: the no-op theorem applied to the one-category store with
its description explicitly re-supplied. -/
theorem c9_unchanged_update_noop_witness :
    update_category exDescStore 1 ⟨some "a", none, DescField.val "d", none⟩
      = (Except.ok UpdateOk.updated, exDescStore) :=
  c9_unchanged_update_noop exDescStore 1
    ⟨1, MetaType.category, "a", "a", "d", 1, 0, 0⟩
    (by unfold midsUnique; decide) rfl rfl rfl rfl rfl

/-! ### C10 — batch tag delete (amended theorem) -/

/-- Closed form of the batch deletion loop: folding `delete_one_tag` over a
list of ids removes exactly the tag rows whose mid is in the list and the
relationship rows referencing any of those ids; contents and counters are
untouched. -/
theorem foldl_delete_one_tag (ds : List Int) (s : Store) :
    (ds.foldl delete_one_tag s).metas
      = s.metas.filter (fun m => !(m.mtype == MetaType.tag && decide (m.mid ∈ ds)))
  ∧ (ds.foldl delete_one_tag s).rels
      = s.rels.filter (fun r => !(decide (r.mid ∈ ds)))
  ∧ (ds.foldl delete_one_tag s).contents = s.contents
  ∧ (ds.foldl delete_one_tag s).nextMid = s.nextMid
  ∧ (ds.foldl delete_one_tag s).nextCid = s.nextCid := by
  induction ds generalizing s with
  | nil =>
    refine ⟨?_, ?_, rfl, rfl, rfl⟩
    · symm
      refine List.filter_eq_self.mpr fun m _ => ?_
      simp
    · symm
      refine List.filter_eq_self.mpr fun r _ => ?_
      simp
  | cons d rest ih =>
    obtain ⟨ihm, ihr, ihc, ihn1, ihn2⟩ := ih (delete_one_tag s d)
    refine ⟨?_, ?_, ihc, ihn1, ihn2⟩
    · rw [List.foldl_cons] at *
      rw [ihm]
      show ((s.metas.filter fun m => !(m.mid == d && m.mtype == MetaType.tag)).filter
          fun m => !(m.mtype == MetaType.tag && decide (m.mid ∈ rest))) = _
      rw [List.filter_filter]
      refine List.filter_congr fun m _ => ?_
      by_cases ht : m.mtype = MetaType.tag <;> by_cases hd : m.mid = d <;>
        simp [ht, hd, List.mem_cons]
    · rw [List.foldl_cons] at *
      rw [ihr]
      show ((s.rels.filter fun r => r.mid != d).filter
          fun r => !(decide (r.mid ∈ rest))) = _
      rw [List.filter_filter]
      refine List.filter_congr fun r _ => ?_
      by_cases hd : r.mid = d <;> simp [hd, List.mem_cons]

/-- The filtered id list of a batch delete is empty exactly when no entry
of the request both parses as an integer and names an existing tag. -/
theorem batchMids_eq_nil_iff (s : Store) (entries : List JsonEntry) :
    batchMids s entries = []
      ↔ ∀ e ∈ entries, ∀ n, pyInt e = some n → tagExistsQ s n = false := by
  unfold batchMids
  rw [List.filterMap_eq_nil_iff]
  constructor
  · intro h e he n hpn
    have h' := h e he
    rw [hpn] at h'
    by_cases ht : tagExistsQ s n = true
    · simp [ht] at h'
    · exact Bool.not_eq_true _ |>.mp ht
  · intro h e he
    cases hpn : pyInt e with
    | none => rfl
    | some n =>
      simp [h e he n hpn]

/-- C10 (amended): the batch tag delete silently skips every entry that
Python `int()` cannot convert (so digit strings count as naming tags) or
whose converted value is not an existing tag id; it fails with NotFound,
leaving the store unchanged, exactly when no entry converts to an existing
tag id; otherwise it reports the number of converted existing ids and
removes exactly those tag rows together with every relationship row
referencing them. -/
theorem c10_batch_delete_behavior (s : Store) (entries : List JsonEntry) :
    ((delete_tag_batch s entries).fst = Except.error ApiErr.notFound
        ↔ ∀ e ∈ entries, ∀ n, pyInt e = some n → tagExistsQ s n = false)
  ∧ ((delete_tag_batch s entries).fst = Except.error ApiErr.notFound →
        (delete_tag_batch s entries).snd = s)
  ∧ ((delete_tag_batch s entries).fst ≠ Except.error ApiErr.notFound →
        (delete_tag_batch s entries).fst = Except.ok (batchMids s entries).length)
  ∧ ((delete_tag_batch s entries).snd.metas
        = s.metas.filter fun m =>
            !(m.mtype == MetaType.tag && decide (m.mid ∈ batchMids s entries)))
  ∧ ((delete_tag_batch s entries).snd.rels
        = s.rels.filter fun r => !(decide (r.mid ∈ batchMids s entries))) := by
  by_cases hE : (batchMids s entries).isEmpty = true
  · have hnil : batchMids s entries = [] := List.isEmpty_iff.mp hE
    have hres : delete_tag_batch s entries = (Except.error ApiErr.notFound, s) := by
      simp only [delete_tag_batch]
      rw [hE]
      rfl
    rw [hres]
    refine ⟨iff_of_true rfl ((batchMids_eq_nil_iff s entries).mp hnil), fun _ => rfl,
      fun hcontra => absurd rfl hcontra, ?_, ?_⟩
    · symm
      refine List.filter_eq_self.mpr fun m _ => ?_
      rw [hnil]
      simp
    · symm
      refine List.filter_eq_self.mpr fun r _ => ?_
      rw [hnil]
      simp
  · have hE' : (batchMids s entries).isEmpty = false := Bool.not_eq_true _ |>.mp hE
    have hres : delete_tag_batch s entries
        = (Except.ok (batchMids s entries).length,
           (batchMids s entries).foldl delete_one_tag s) := by
      simp only [delete_tag_batch]
      rw [hE']
      rfl
    obtain ⟨hm, hr, _, _, _⟩ := foldl_delete_one_tag (batchMids s entries) s
    rw [hres]
    refine ⟨iff_of_false (by simp) ?_, by simp, fun _ => rfl, hm, hr⟩
    intro hall
    exact absurd ((batchMids_eq_nil_iff s entries).mpr hall)
      (by rw [← List.isEmpty_iff, hE']; simp)

/-- C10 witness: the behaviour theorem applied to the one-tag store with
the integer entry 5 — the call does not 404 and returns the count 1. -/
theorem c10_batch_delete_witness :
    (delete_tag_batch exTag5Store [JsonEntry.int 5]).fst
      = Except.ok (batchMids exTag5Store [JsonEntry.int 5]).length :=
  (c10_batch_delete_behavior exTag5Store [JsonEntry.int 5]).2.2.1
    (fun hcontra => Except.noConfusion hcontra)

/-! ### C2 — reference counts stay non-negative (amended theorem)

The counterexample above shows the decrement itself is not clamped.  The
amended statement: from any store in which every node's count is at least
the number of relationship rows referencing it (`countInv`, true of the
empty store) and whose mids are unique, every sequence of content
create/delete operations preserves that bound, so no count ever becomes
negative. -/

/-- The count bump of the link loops does not change a row's mid. -/
theorem linkBump_mid (t : MetaType) (nid : Int) (m : Meta) :
    (if m.mid == nid && m.mtype == t then
      { m with count := m.count + 1 } else m).mid = m.mid := by
  by_cases h : (m.mid == nid && m.mtype == t) = true
  · rw [if_pos h]
  · rw [if_neg h]

/-- One link-loop iteration preserves mid uniqueness. -/
theorem linkGen_midsUnique (t : MetaType) (pid nid : Int) (s : Store)
    (hu : midsUnique s) : midsUnique (linkGen t pid s nid) := by
  unfold linkGen
  by_cases hex : (s.metas.any fun m => m.mtype == t && m.mid == nid) = true
  · rw [if_pos hex]
    show List.Pairwise (fun a b : Meta => a.mid ≠ b.mid)
      (s.metas.map fun m =>
        if m.mid == nid && m.mtype == t then { m with count := m.count + 1 } else m)
    rw [List.pairwise_map]
    exact hu.imp fun hab => by
      rw [linkBump_mid, linkBump_mid]
      exact hab
  · rw [if_neg hex]
    exact hu

/-- One link-loop iteration preserves the count bound: the relationship row
is inserted exactly when the (unique) node of that mid and kind gets its
count bumped. -/
theorem linkGen_countInv (t : MetaType) (pid nid : Int) (s : Store)
    (hu : midsUnique s) (hc : countInv s) : countInv (linkGen t pid s nid) := by
  unfold linkGen
  by_cases hex : (s.metas.any fun m => m.mtype == t && m.mid == nid) = true
  · rw [if_pos hex]
    unfold countInv
    intro m' hm'
    have hm2 : m' ∈ s.metas.map (fun m =>
        if m.mid == nid && m.mtype == t then { m with count := m.count + 1 } else m) := hm'
    rw [List.mem_map] at hm2
    obtain ⟨m, hm, hfm⟩ := hm2
    have hrel : ∀ x : Int, relCountTo { s with
        rels := s.rels ++ [{ cid := pid, mid := nid }]
        metas := s.metas.map fun m =>
          if m.mid == nid && m.mtype == t then { m with count := m.count + 1 } else m } x
        = relCountTo s x + (if (nid == x) = true then 1 else 0) := by
      intro x
      show (List.filter (fun r => r.mid == x)
          (s.rels ++ [{ cid := pid, mid := nid }])).length = _
      rw [List.filter_append, List.length_append]
      by_cases h : (nid == x) = true
      · simp [List.filter_cons, h, relCountTo]
      · simp [List.filter_cons, h, relCountTo]
    by_cases hcond : (m.mid == nid && m.mtype == t) = true
    · rw [if_pos hcond] at hfm
      have hmid : m'.mid = m.mid := by rw [← hfm]
      have hcount : m'.count = m.count + 1 := by rw [← hfm]
      have hx : (nid == m.mid) = true := by
        rw [Bool.and_eq_true, beq_iff_eq] at hcond
        simp [hcond.1]
      rw [hmid, hrel m.mid, hx, hcount]
      have := hc m hm
      push_cast
      omega
    · rw [if_neg hcond] at hfm
      subst hfm
      have hx : (nid == m.mid) = false := by
        rw [List.any_eq_true] at hex
        obtain ⟨m0, hm0, hp0⟩ := hex
        rw [Bool.and_eq_true, beq_iff_eq, beq_iff_eq] at hp0
        by_contra hxx
        rw [Bool.not_eq_false, beq_iff_eq] at hxx
        have hm0m : m = m0 := mem_unique_mid hu hm hm0 (by rw [← hxx, hp0.2])
        apply hcond
        rw [Bool.and_eq_true, beq_iff_eq, beq_iff_eq]
        exact ⟨hxx.symm, by rw [hm0m]; exact hp0.1⟩
      rw [hrel m.mid, hx]
      simpa using hc m hm
  · rw [if_neg hex]
    exact hc

/-- The link loops preserve both invariants. -/
theorem foldl_linkGen_inv (t : MetaType) (pid : Int) :
    ∀ (ids : List Int) (s : Store), midsUnique s → countInv s →
      midsUnique (ids.foldl (linkGen t pid) s) ∧ countInv (ids.foldl (linkGen t pid) s)
  | [], _, hu, hc => ⟨hu, hc⟩
  | d :: rest, s, hu, hc => by
    rw [List.foldl_cons]
    exact foldl_linkGen_inv t pid rest (linkGen t pid s d)
      (linkGen_midsUnique t pid d s hu) (linkGen_countInv t pid d s hu hc)

/-- `create_post` preserves mid uniqueness and the count bound. -/
theorem create_post_inv (s : Store) (req : PostCreateReq)
    (hu : midsUnique s) (hc : countInv s) :
    midsUnique (create_post s req).snd ∧ countInv (create_post s req).snd := by
  unfold create_post
  by_cases hv : (req.title.isEmpty || req.text.isEmpty) = true
  · rw [if_pos hv]
    exact ⟨hu, hc⟩
  · rw [if_neg hv]
    have h1 : midsUnique { s with
        contents := s.contents ++
          [{ cid := s.nextCid, ctype := "post", status := req.status, parent := 0 }]
        nextCid := s.nextCid + 1 } := hu
    have h2 : countInv { s with
        contents := s.contents ++
          [{ cid := s.nextCid, ctype := "post", status := req.status, parent := 0 }]
        nextCid := s.nextCid + 1 } := hc
    obtain ⟨hu2, hc2⟩ := foldl_linkGen_inv MetaType.category s.nextCid req.categoryIds _ h1 h2
    cases hts : req.tags with
    | none => exact ⟨hu2, hc2⟩
    | some ts =>
      exact foldl_linkGen_inv MetaType.tag s.nextCid (ts.filter fun n => 0 ≤ n) _ hu2 hc2

/-- Relationship rows after one delete/decrement step. -/
theorem delStepGen_rels (t : MetaType) (pid : Int) (pub : Bool) (s : Store) (mid0 : Int) :
    (delStepGen t pid pub s mid0).rels
      = s.rels.filter fun r => !(r.cid == pid && r.mid == mid0) := by
  unfold delStepGen
  cases pub <;> rfl

/-- Meta rows after one delete/decrement step. -/
theorem delStepGen_metas (t : MetaType) (pid : Int) (pub : Bool) (s : Store) (mid0 : Int) :
    (delStepGen t pid pub s mid0).metas
      = if pub then
          (s.metas.map fun m =>
            if m.mid == mid0 && m.mtype == t then { m with count := m.count - 1 } else m)
        else s.metas := by
  unfold delStepGen
  cases pub <;> rfl

/-- Contents and counters are untouched by the delete/decrement steps. -/
theorem delStepGen_frame (t : MetaType) (pid : Int) (pub : Bool) (s : Store) (mid0 : Int) :
    (delStepGen t pid pub s mid0).contents = s.contents
  ∧ (delStepGen t pid pub s mid0).nextMid = s.nextMid
  ∧ (delStepGen t pid pub s mid0).nextCid = s.nextCid := by
  unfold delStepGen
  cases pub <;> exact ⟨rfl, rfl, rfl⟩

/-- The count decrement of the delete loops does not change a row's mid. -/
theorem delBump_mid (t : MetaType) (mid0 : Int) (m : Meta) :
    (if m.mid == mid0 && m.mtype == t then
      { m with count := m.count - 1 } else m).mid = m.mid := by
  by_cases h : (m.mid == mid0 && m.mtype == t) = true
  · rw [if_pos h]
  · rw [if_neg h]

/-- Contents and counters through the whole delete loop. -/
theorem foldl_delStepGen_frame (t : MetaType) (pid : Int) (pub : Bool) :
    ∀ (ms : List Int) (s : Store),
      (ms.foldl (delStepGen t pid pub) s).contents = s.contents
    ∧ (ms.foldl (delStepGen t pid pub) s).nextMid = s.nextMid
    ∧ (ms.foldl (delStepGen t pid pub) s).nextCid = s.nextCid
  | [], _ => ⟨rfl, rfl, rfl⟩
  | d :: rest, s => by
    rw [List.foldl_cons]
    obtain ⟨h1, h2, h3⟩ := foldl_delStepGen_frame t pid pub rest (delStepGen t pid pub s d)
    obtain ⟨g1, g2, g3⟩ := delStepGen_frame t pid pub s d
    exact ⟨h1.trans g1, h2.trans g2, h3.trans g3⟩

/-- Closed form of the meta rows after the whole delete loop: each node of
the decremented kind loses one count per occurrence of its mid in the
worked list. -/
theorem foldl_delStepGen_metas (t : MetaType) (pid : Int) (pub : Bool) :
    ∀ (ms : List Int) (s : Store),
      (ms.foldl (delStepGen t pid pub) s).metas
        = s.metas.map fun m =>
            if pub && (m.mtype == t) then
              { m with count := m.count - (ms.count m.mid : Int) }
            else m := by
  intro ms
  induction ms with
  | nil =>
    intro s
    symm
    refine (List.map_congr_left ?_).trans (List.map_id _)
    intro m _
    by_cases h : (pub && (m.mtype == t)) = true
    · rw [if_pos h]
      show ({ m with count := m.count - ((List.count m.mid ([] : List Int) : Nat) : Int) } : Meta)
        = id m
      norm_num
    · rw [if_neg h]
      rfl
  | cons d rest ih =>
    intro s
    rw [List.foldl_cons, ih, delStepGen_metas]
    cases hp : pub with
    | false =>
      simp
    | true =>
      simp only [if_true]
      rw [List.map_map]
      refine List.map_congr_left fun m _ => ?_
      simp only [Function.comp]
      by_cases ht : m.mtype = t
      · by_cases hd : m.mid = d
        · simp [ht, hd, List.count_cons]
          omega
        · simp [ht, hd, List.count_cons]
      · simp [ht]

/-- The delete loop removes every relationship row of the post, provided the
worked list covers the mids of those rows (which the step-3 SELECT
guarantees). -/
theorem foldl_delStepGen_rels (t : MetaType) (pid : Int) (pub : Bool) :
    ∀ (ms : List Int) (s : Store),
      (∀ r ∈ s.rels, r.cid = pid → r.mid ∈ ms) →
      (ms.foldl (delStepGen t pid pub) s).rels
        = s.rels.filter fun r => !(r.cid == pid) := by
  intro ms
  induction ms with
  | nil =>
    intro s hcov
    symm
    refine List.filter_eq_self.mpr fun r hr => ?_
    by_cases h : r.cid = pid
    · exact absurd (hcov r hr h) (List.not_mem_nil _)
    · simp [h]
  | cons d rest ih =>
    intro s hcov
    rw [List.foldl_cons, ih (delStepGen t pid pub s d) ?_]
    · rw [delStepGen_rels, List.filter_filter]
      refine List.filter_congr fun r _ => ?_
      by_cases hcid : r.cid = pid <;> simp [hcid]
    · intro r hr hcid
      rw [delStepGen_rels, List.mem_filter] at hr
      obtain ⟨hmem, hpred⟩ := hr
      have hmem2 := hcov r hmem hcid
      rw [List.mem_cons] at hmem2
      rcases hmem2 with h | h
      · exfalso
        rw [hcid, h] at hpred
        simp at hpred
      · exact h

/-- The step-3 SELECT covers every relationship row of the post. -/
theorem relMidsOf_cov (s : Store) (pid : Int) :
    ∀ r ∈ s.rels, r.cid = pid → r.mid ∈ relMidsOf s pid := by
  intro r hr hcid
  unfold relMidsOf
  exact List.mem_map.mpr ⟨r, List.mem_filter.mpr ⟨hr, by simp [hcid]⟩, rfl⟩

/-- After step 3, no relationship row of the post remains. -/
theorem delPostStage2_rels (s : Store) (pid : Int) (pub : Bool) :
    (delPostStage2 s pid pub).rels = s.rels.filter fun r => !(r.cid == pid) := by
  unfold delPostStage2
  exact foldl_delStepGen_rels MetaType.category pid pub
    (relMidsOf (delPostStage1 s pid) pid) (delPostStage1 s pid)
    (relMidsOf_cov (delPostStage1 s pid) pid)

/-- After step 3, each category's count dropped by the number of its
original link rows to the post; other rows are unchanged. -/
theorem delPostStage2_metas (s : Store) (pid : Int) (pub : Bool) :
    (delPostStage2 s pid pub).metas
      = s.metas.map fun m =>
          if pub && (m.mtype == MetaType.category) then
            { m with count := m.count - ((relMidsOf s pid).count m.mid : Int) }
          else m := by
  unfold delPostStage2
  exact foldl_delStepGen_metas MetaType.category pid pub
    (relMidsOf (delPostStage1 s pid) pid) (delPostStage1 s pid)

/-- The step-4 re-query returns nothing: step 3 already deleted every
relationship row of the post. -/
theorem relMidsOf_stage2 (s : Store) (pid : Int) (pub : Bool) :
    relMidsOf (delPostStage2 s pid pub) pid = [] := by
  unfold relMidsOf
  rw [delPostStage2_rels, List.filter_filter]
  rw [List.filter_eq_nil_iff.mpr ?_]
  · rfl
  · intro r _
    by_cases h : r.cid = pid <;> simp [h]

/-- Step 4 (the tag decrement loop) is dead code: it runs over an empty
list and changes nothing. -/
theorem delPostStage3_eq (s : Store) (pid : Int) (pub : Bool) :
    delPostStage3 s pid pub = delPostStage2 s pid pub := by
  unfold delPostStage3
  rw [relMidsOf_stage2]
  rfl

/-- Step 6 touches only contents. -/
theorem delPostStage4_metas_rels (s : Store) (pid : Int) (pub : Bool) :
    (delPostStage4 s pid pub).metas = (delPostStage3 s pid pub).metas
  ∧ (delPostStage4 s pid pub).rels = (delPostStage3 s pid pub).rels :=
  ⟨rfl, rfl⟩

/-- Meta rows of the whole cascade, in closed form. -/
theorem deletePostCascade_metas (s : Store) (pid : Int) (pub : Bool) :
    (deletePostCascade s pid pub).metas
      = s.metas.map fun m =>
          if pub && (m.mtype == MetaType.category) then
            { m with count := m.count - ((relMidsOf s pid).count m.mid : Int) }
          else m := by
  have hbase : (delPostStage4 s pid pub).metas
      = s.metas.map fun m =>
          if pub && (m.mtype == MetaType.category) then
            { m with count := m.count - ((relMidsOf s pid).count m.mid : Int) }
          else m := by
    rw [(delPostStage4_metas_rels s pid pub).1, delPostStage3_eq, delPostStage2_metas]
  unfold deletePostCascade
  cases hdr : (delPostStage4 s pid pub).contents.find?
      (fun c => c.parent == pid && c.ctype == "post_draft") with
  | some draft => exact hbase
  | none => exact hbase

/-- Relationship rows of the whole cascade are among the rows not
referencing the post (step 8 may remove further draft rows). -/
theorem deletePostCascade_rels_sub (s : Store) (pid : Int) (pub : Bool) :
    ((deletePostCascade s pid pub).rels).Sublist
      (s.rels.filter fun r => !(r.cid == pid)) := by
  have hbase : (delPostStage4 s pid pub).rels
      = s.rels.filter fun r => !(r.cid == pid) := by
    rw [(delPostStage4_metas_rels s pid pub).2, delPostStage3_eq, delPostStage2_rels]
  unfold deletePostCascade
  cases hdr : (delPostStage4 s pid pub).contents.find?
      (fun c => c.parent == pid && c.ctype == "post_draft") with
  | some draft =>
    show ((delPostStage4 s pid pub).rels.filter fun r => r.cid != draft.cid).Sublist _
    rw [hbase]
    exact List.filter_sublist _
  | none =>
    show ((delPostStage4 s pid pub).rels).Sublist _
    rw [hbase]

/-- The cascade's count adjustment does not change a row's mid. -/
theorem cascadeDec_mid (pub : Bool) (t : MetaType) (k : Int) (m : Meta) :
    (if pub && (m.mtype == t) then { m with count := m.count - k } else m).mid
      = m.mid := by
  by_cases h : (pub && (m.mtype == t)) = true
  · rw [if_pos h]
  · rw [if_neg h]

/-- Occurrences in the worked mid list count the original link rows. -/
theorem count_map_mid (x : Int) : ∀ (l : List Rel),
    (l.map Rel.mid).count x = (l.filter fun r => r.mid == x).length
  | [] => rfl
  | r :: tl => by
    rw [List.map_cons, List.count_cons, List.filter_cons]
    by_cases h : (r.mid == x) = true
    · rw [if_pos h]
      simp [count_map_mid x tl, h]
    · rw [if_neg h]
      simp [count_map_mid x tl, h]

/-- Number of decrements a node receives from the category loop. -/
theorem relMidsOf_count (s : Store) (pid x : Int) :
    (relMidsOf s pid).count x
      = (s.rels.filter fun r => (r.mid == x) && (r.cid == pid)).length := by
  unfold relMidsOf
  rw [count_map_mid, List.filter_filter]

/-- Splitting a filtered length along a second predicate. -/
theorem length_filter_split {α : Type} (p q : α → Bool) : ∀ (l : List α),
    (l.filter p).length
      = (l.filter fun a => p a && q a).length
        + (l.filter fun a => p a && !q a).length
  | [] => rfl
  | a :: tl => by
    have ih := length_filter_split p q tl
    rw [List.filter_cons, List.filter_cons, List.filter_cons]
    by_cases hp : p a = true <;> by_cases hq : q a = true <;>
      simp [hp, hq, ih] <;> omega

/-- `delete_post` preserves mid uniqueness and the count bound: every
decrement corresponds to a deleted relationship row, so counts remain at
least the number of remaining links and in particular non-negative. -/
theorem delete_post_inv (s : Store) (pid : Int)
    (hu : midsUnique s) (hc : countInv s) :
    midsUnique (delete_post s pid).snd ∧ countInv (delete_post s pid).snd := by
  unfold delete_post
  cases hf : s.contents.find?
      (fun c => c.cid == pid && (c.ctype == "post" || c.ctype == "post_draft")) with
  | none => exact ⟨hu, hc⟩
  | some post =>
    constructor
    · show midsUnique (deletePostCascade s pid
        (post.status == "publish" && post.ctype == "post"))
      unfold midsUnique
      rw [deletePostCascade_metas, List.pairwise_map]
      exact hu.imp fun hab => by
        rw [cascadeDec_mid, cascadeDec_mid]
        exact hab
    · show countInv (deletePostCascade s pid
        (post.status == "publish" && post.ctype == "post"))
      unfold countInv
      intro m' hm'
      rw [deletePostCascade_metas, List.mem_map] at hm'
      obtain ⟨m, hm, hfm⟩ := hm'
      have hmid : m'.mid = m.mid := by
        rw [← hfm]
        exact cascadeDec_mid _ _ _ m
      have hsub := deletePostCascade_rels_sub s pid
        (post.status == "publish" && post.ctype == "post")
      have hrel : relCountTo (deletePostCascade s pid
            (post.status == "publish" && post.ctype == "post")) m.mid
          ≤ ((s.rels.filter fun r => !(r.cid == pid)).filter
              fun r => r.mid == m.mid).length := by
        unfold relCountTo
        exact (hsub.filter _).length_le
      have hC : ((s.rels.filter fun r => !(r.cid == pid)).filter
            fun r => r.mid == m.mid).length
          = (s.rels.filter fun r => (r.mid == m.mid) && !(r.cid == pid)).length := by
        rw [List.filter_filter]
      have hsplit := length_filter_split (fun r : Rel => r.mid == m.mid)
        (fun r : Rel => r.cid == pid) s.rels
      have hD := relMidsOf_count s pid m.mid
      have hA : (((s.rels.filter fun r => r.mid == m.mid).length : Nat) : Int) ≤ m.count :=
        hc m hm
      rw [hmid]
      by_cases hcond : ((post.status == "publish" && post.ctype == "post")
          && (m.mtype == MetaType.category)) = true
      · rw [if_pos hcond] at hfm
        have hcount : m'.count
            = m.count - ((relMidsOf s pid).count m.mid : Int) := by
          rw [← hfm]
        rw [hcount, hD]
        rw [hC] at hrel
        omega
      · rw [if_neg hcond] at hfm
        subst hfm
        rw [hC] at hrel
        omega

/-- One content lifecycle operation: a post create request or a post
delete by cid. -/
inductive PostOp
  | create (req : PostCreateReq)
  | del (pid : Int)
deriving Repr

/-- State effect of one lifecycle operation. -/
def applyPostOp (s : Store) : PostOp → Store
  | PostOp.create req => (create_post s req).snd
  | PostOp.del pid => (delete_post s pid).snd

/-- C2 (amended): the code does not clamp the decrement (see the
counterexample), but from any store whose mids are unique and whose counts
dominate the number of links per node — in particular the empty store —
every sequence of content create/delete operations keeps every
referenceCount non-negative, because each decrement is matched by a
previously inserted link row. -/
theorem c2_counts_never_negative (ops : List PostOp) (s : Store)
    (hu : midsUnique s) (hc : countInv s) :
    ∀ m ∈ (ops.foldl applyPostOp s).metas, 0 ≤ m.count := by
  have hfold : ∀ (l : List PostOp) (s0 : Store), midsUnique s0 → countInv s0 →
      midsUnique (l.foldl applyPostOp s0) ∧ countInv (l.foldl applyPostOp s0) := by
    intro l
    induction l with
    | nil => exact fun s0 hu0 hc0 => ⟨hu0, hc0⟩
    | cons op rest ih =>
      intro s0 hu0 hc0
      rw [List.foldl_cons]
      cases op with
      | create req =>
        obtain ⟨h1, h2⟩ := create_post_inv s0 req hu0 hc0
        exact ih _ h1 h2
      | del pid =>
        obtain ⟨h1, h2⟩ := delete_post_inv s0 pid hu0 hc0
        exact ih _ h1 h2
  intro m hm
  have h := (hfold ops s hu hc).2 m hm
  have hnn : (0 : Int) ≤ ((relCountTo (ops.foldl applyPostOp s) m.mid : Nat) : Int) :=
    Int.natCast_nonneg _
  omega

/-- C2 witness: the non-negativity theorem applied to the one-tag store and
a concrete create-then-delete sequence (the published post links tag 1). -/
theorem c2_counts_witness :
    ((([PostOp.create ⟨"t", "x", [], some [1], "publish"⟩,
        PostOp.del 1]).foldl applyPostOp exOneTagStore).metas.all
      fun m => decide (0 ≤ m.count)) = true := by
  rw [List.all_eq_true]
  intro m hm
  exact decide_eq_true (c2_counts_never_negative _ exOneTagStore
    (by unfold midsUnique; decide)
    (by unfold countInv relCountTo; decide) m hm)

end TypechoApi
